import Mathlib

/-!
Verification of the computational core of `geniusrise_healthcare`.

The development shallowly embeds the Python sources:
* `geniusrise_healthcare/base.py` — `ner`, `semantic_search_snomed`,
  `generate_snomed_graph_from_concepts`;
* `geniusrise_healthcare/genius.py` — the `InPatientAPI.graph` endpoint;
* `geniusrise_healthcare/umls/semantic_types.py` — `process_semantic_types_file`.

NetworkX `DiGraph` objects become `PyDiGraph`: association lists of nodes with
attribute dictionaries and of directed edges with attribute dictionaries, in
insertion order (networkx iterates nodes and edges in insertion order, which
the spec calls the graph's native iteration order).  Python dictionaries become
association lists with first-match lookup; `d[k]` on a missing key becomes an
`Except` error (Python `KeyError`).  Mutation of a shared object becomes
explicit state passing.  Functions of this repository that are not under
`src/` (`find_adjacent_nodes`, `find_semantically_similar_nodes`,
`draw_subgraph`, `annotate_snomed`, `read_rrf_file`) are modelled from the
spec; each such definition says so in its doc comment.  The outcome of the
external best-effort diagram draw and of the filesystem check in the endpoint
are passed in as explicit parameters, since they depend on the environment.
-/

/-- A Python attribute value as stored on graph nodes and edges: a string, an
int, or a list of values (the `semantic_types` attribute is a list). -/
inductive PyVal where
  | pyStr : String → PyVal
  | pyInt : Int → PyVal
  | pyList : List PyVal → PyVal

/-- Attribute dictionary of a node or an edge, in insertion order. -/
abbrev Attrs := List (String × PyVal)

/-- First-match association-list lookup; the model of Python `dict.get` /
`dict.__getitem__` (dicts hold one entry per key, so first match is the
entry). -/
def alookup {α β : Type} [DecidableEq α] : List (α × β) → α → Option β
  | [], _ => none
  | p :: rest, k => if p.1 = k then some p.2 else alookup rest k

/-- Python `d[k] = v`: overwrite in place when the key exists (keeping its
position, as Python dicts do), otherwise append at the end. -/
def dictSet {β : Type} (d : List (String × β)) (k : String) (v : β) : List (String × β) :=
  if (alookup d k).isSome then d.map (fun p => if p.1 = k then (p.1, v) else p)
  else d ++ [(k, v)]

/-- Python `d.update(e)`: set every key of `e` in `d`, in order. -/
def dictUpdate {β : Type} (d e : List (String × β)) : List (String × β) :=
  e.foldl (fun acc p => dictSet acc p.1 p.2) d

/-- A networkx `DiGraph` over node identifiers of type `ν`: nodes with
attribute dicts and directed edges `(u, v, data)` with attribute dicts, both
in insertion order. -/
structure PyDiGraph (ν : Type) where
  nodes : List (ν × Attrs)
  edges : List (ν × ν × Attrs)

/-- Python `n in G`: node membership. -/
def hasNode {ν : Type} [DecidableEq ν] (G : PyDiGraph ν) (n : ν) : Bool :=
  (alookup G.nodes n).isSome

/-- The node identifiers of a graph, in iteration order. -/
def nodeIds {ν : Type} (G : PyDiGraph ν) : List ν :=
  G.nodes.map (fun p => p.1)

/-- The `(from, to)` pairs of the edges of a graph, in iteration order. -/
def edgePairs {ν : Type} (G : PyDiGraph ν) : List (ν × ν) :=
  G.edges.map (fun e => (e.1, e.2.1))

/-- Attribute dictionary of a node (empty when the node is absent). -/
def nodeAttrs {ν : Type} [DecidableEq ν] (G : PyDiGraph ν) (n : ν) : Attrs :=
  (alookup G.nodes n).getD []

/-- One step of `nx.compose`: add one of `H`'s nodes to the accumulator, as
`add_nodes_from` with data does — if the node exists its attribute dict is
updated (H wins per key), otherwise the node is appended. -/
def addNodeFrom {ν : Type} [DecidableEq ν] (G : PyDiGraph ν) (p : ν × Attrs) : PyDiGraph ν :=
  if hasNode G p.1 then
    { G with nodes := G.nodes.map (fun q => if q.1 = p.1 then (q.1, dictUpdate q.2 p.2) else q) }
  else
    { G with nodes := G.nodes ++ [p] }

/-- Ensure a node exists, as networkx `add_edge` does for a missing endpoint:
append it with an empty attribute dict. -/
def ensureNode {ν : Type} [DecidableEq ν] (G : PyDiGraph ν) (x : ν) : PyDiGraph ν :=
  if hasNode G x then G else { G with nodes := G.nodes ++ [(x, [])] }

/-- One step of `nx.compose`: add one of `H`'s edges to the accumulator, as
`add_edges_from` with data does — missing endpoints are added as fresh nodes,
an existing edge has its attribute dict updated (H wins per key), a new edge
is appended. -/
def addEdgeFrom {ν : Type} [DecidableEq ν] (G : PyDiGraph ν) (e : ν × ν × Attrs) : PyDiGraph ν :=
  let G2 := ensureNode (ensureNode G e.1) e.2.1
  if G2.edges.any (fun f => decide (f.1 = e.1 ∧ f.2.1 = e.2.1)) then
    let updated := G2.edges.map
      (fun f => if f.1 = e.1 ∧ f.2.1 = e.2.1 then (f.1, f.2.1, dictUpdate f.2.2 e.2.2) else f)
    { G2 with edges := updated }
  else
    { G2 with edges := G2.edges ++ [e] }

/-- `nx.compose(G, H)`: a new graph containing the nodes and edges of both,
attributes of `H` taking precedence per key; neither argument is modified
(networkx returns a fresh graph). -/
def nxCompose {ν : Type} [DecidableEq ν] (G H : PyDiGraph ν) : PyDiGraph ν :=
  H.edges.foldl addEdgeFrom (H.nodes.foldl addNodeFrom G)

/-- Keep the first occurrence of every element (Python set insertion keeps the
first insertion of a value). -/
def dedupFirst (seen : List Int) : List Int → List Int
  | [] => []
  | x :: xs => if x ∈ seen then dedupFirst seen xs else x :: dedupFirst (x :: seen) xs

/-- Insert into a list kept ascending by residue modulo 8. -/
def insertAscMod8 (x : Int) : List Int → List Int
  | [] => [x]
  | y :: ys => if x.emod 8 ≤ y.emod 8 then x :: y :: ys else y :: insertAscMod8 x ys

/-- Sort ascending by residue modulo 8. -/
def sortAscMod8 (l : List Int) : List Int := l.foldr insertAscMod8 []

/-- Model of Python `list(set(xs))` for int elements.  CPython hashes an int
to itself and a set of at most four distinct non-negative ints below 8 sits in
the initial 8-slot table with entry `i` in slot `i % 8`, so iteration visits
the values in ascending slot order; the model reproduces that order in this
regime.  Outside it the iteration order depends on the table history, so the
model keeps first-occurrence order; no theorem relies on the order outside the
small regime — only on membership and on the absence of duplicates. -/
def pySetList (xs : List Int) : List Int :=
  let d := dedupFirst [] xs
  if d.length ≤ 4 ∧ d.all (fun i => decide (0 ≤ i ∧ i < 8)) then sortAscMod8 d else d

/-- A neighbor list of `v` ignoring edge direction: successors then
predecessors, in edge iteration order. -/
def undirectedNeighbors (G : PyDiGraph Int) (v : Int) : List Int :=
  G.edges.filterMap (fun e => if e.1 = v then some e.2.1 else none) ++
    G.edges.filterMap (fun e => if e.2.1 = v then some e.1 else none)

/-- One breadth-first hop: the visited set together with all undirected
neighbors of visited nodes, duplicates removed keeping first visit order. -/
def expandOnce (G : PyDiGraph Int) (vs : List Int) : List Int :=
  dedupFirst [] (vs ++ vs.flatMap (undirectedNeighbors G))

/-- The nodes reachable from `seed` within `depth` undirected hops. -/
def reachSet (G : PyDiGraph Int) (seed : Int) : Nat → List Int
  | 0 => [seed]
  | n + 1 => expandOnce G (reachSet G seed n)

/-- The subgraph of `G` induced by the node list `vs`: exactly the listed
nodes that exist in `G` and the original edges between them. -/
def inducedSubgraph (G : PyDiGraph Int) (vs : List Int) : PyDiGraph Int :=
  { nodes := G.nodes.filter (fun p => vs.contains p.1),
    edges := G.edges.filter (fun e => vs.contains e.1 && vs.contains e.2.1) }

/-- Modelled from the spec: `find_adjacent_nodes` lives in
`geniusrise_healthcare/search.py`, which is not under `src/`.  Per spec 4.3 it
performs, for each seed, a breadth-first traversal up to `n` hops following
both successors and predecessors, and produces one induced subgraph per seed
containing exactly the visited nodes and the original edges between them; a
seed absent from the graph yields an empty subgraph.  `top_n = 0` (unlimited
expansion) is the only configuration the callers under `src/` exercise, and
the model covers that case, ignoring the `top_n` argument. -/
def find_adjacent_nodes (source_nodes : List Int) (G : PyDiGraph Int)
    (n : Nat) (_top_n : Nat) : List (PyDiGraph Int) :=
  source_nodes.map (fun seed =>
    if hasNode G seed then inducedSubgraph G (reachSet G seed n)
    else { nodes := [], edges := [] })

/-- The subgraph list built by the seed loop of
`generate_snomed_graph_from_concepts`: expanded subgraphs of every seed group,
concatenated in order. -/
def expandAll (snomed_concepts : List (List Int)) (G : PyDiGraph Int)
    (depth : Nat) : List (PyDiGraph Int) :=
  snomed_concepts.foldl (fun acc node => acc ++ find_adjacent_nodes node G depth 0) []

/-- Failure modes of `generate_snomed_graph_from_concepts`:
`subgraphs[0]` on an empty list (Python `IndexError`), a missing dictionary
key (Python `KeyError`), or an exception escaping the external
`draw_subgraph` call. -/
inductive GenError where
  | indexError : GenError
  | keyError : String → GenError
  | drawError : String → GenError
deriving DecidableEq

/-- The composition step of `generate_snomed_graph_from_concepts`
(base.py lines 217–219): `composed_graph = subgraphs[0].copy()` — an
`IndexError` when the list is empty, and `.copy()` is the identity on the
value — then a left fold of `nx.compose` over the remaining subgraphs. -/
def composeSubgraphs : List (PyDiGraph Int) → Except GenError (PyDiGraph Int)
  | [] => Except.error GenError.indexError
  | g :: rest => Except.ok (rest.foldl nxCompose g)

/-- `concept_id_to_concept.get(str(node), node)` (base.py lines 234–235): the
name of a node id, falling back to the raw identifier rendered as a decimal
string — which is what the f-string makes of the fallback int. -/
def nodeName (lookup : List (String × String)) (i : Int) : String :=
  (alookup lookup (toString i)).getD (toString i)

/-- The first dict indexing of base.py line 238,
`edge_data['relationship_type']`: a missing attribute is a `KeyError`, and
only a string value can then be found in the str-keyed name lookup — an int
renders its `KeyError` key in decimal and a list value is unhashable. -/
def relKeyOf (attrs : Attrs) : Except String String :=
  match alookup attrs "relationship_type" with
  | none => Except.error "relationship_type"
  | some (PyVal.pyStr r) => Except.ok r
  | some (PyVal.pyInt m) => Except.error (toString m)
  | some (PyVal.pyList _) => Except.error "unhashable"

/-- The resolved relationship name of an edge attribute dict, when both dict
indexings of base.py line 238 succeed. -/
def relNameOf (lookup : List (String × String)) (attrs : Attrs) : Option String :=
  match relKeyOf attrs with
  | Except.ok r => alookup lookup r
  | Except.error _ => none

/-- One rendered line of base.py line 238, or the missing key: the edge data
is indexed directly for `relationship_type` and the lookup is indexed directly
with the resulting value, so either miss is a `KeyError`. -/
def edgeLineE (lookup : List (String × String)) (e : Int × Int × Attrs) :
    Except String String :=
  match relKeyOf e.2.2 with
  | Except.error k => Except.error k
  | Except.ok r =>
      match alookup lookup r with
      | none => Except.error r
      | some rel =>
          Except.ok (nodeName lookup e.1 ++ " --[" ++ rel ++ "]--> " ++
            nodeName lookup e.2.1 ++ "\n")

/-- The edge loop of base.py lines 232–239, accumulating
`human_readable_str`; the first unresolvable relationship type aborts with its
key. -/
def renderEdges (lookup : List (String × String)) :
    List (Int × Int × Attrs) → String → Except String String
  | [], acc => Except.ok acc
  | e :: rest, acc =>
      match edgeLineE lookup e with
      | Except.error k => Except.error k
      | Except.ok line => renderEdges lookup rest (acc ++ line)

/-- The text rendering of base.py lines 231–239: the header `"Graph:\n"`
followed by one line per edge in the graph's edge iteration order. -/
def renderText (lookup : List (String × String)) (G : PyDiGraph Int) :
    Except String String :=
  renderEdges lookup G.edges "Graph:\n"

/-- The line the f-string of base.py line 238 produces for one edge, given
the resolved relationship name. -/
def lineOf (lookup : List (String × String)) (e : Int × Int × Attrs) : String :=
  nodeName lookup e.1 ++ " --[" ++ (relNameOf lookup e.2.2).getD "" ++ "]--> " ++
    nodeName lookup e.2.1 ++ "\n"

/-- The lines of all edges, concatenated in edge iteration order. -/
def linesOf (lookup : List (String × String)) : List (Int × Int × Attrs) → String
  | [] => ""
  | e :: rest => lineOf lookup e ++ linesOf lookup rest

/-- `generate_snomed_graph_from_concepts` (base.py lines 195–241): expand each
seed group, compose the subgraphs (`IndexError` when there are none), call the
external `draw_subgraph` — whose outcome `drawRes` is an input, since it
depends on the filesystem; an exception there propagates, there is no handler
— then build the human-readable string.  The returned temp-file path is
environment chosen and not part of the model; the result is the composed
graph and the text. -/
def generate_snomed_graph_from_concepts (snomed_concepts : List (List Int))
    (G : PyDiGraph Int) (concept_id_to_concept : List (String × String))
    (graph_search_depth : Nat) (drawRes : Except String Unit) :
    Except GenError (PyDiGraph Int × String) :=
  match composeSubgraphs (expandAll snomed_concepts G graph_search_depth) with
  | Except.error e => Except.error e
  | Except.ok composed =>
      match drawRes with
      | Except.error m => Except.error (GenError.drawError m)
      | Except.ok _ =>
          match renderText concept_id_to_concept composed with
          | Except.error k => Except.error (GenError.keyError k)
          | Except.ok text => Except.ok (composed, text)

/-- `InPatientAPI.graph` (genius.py lines 191–241): run
`generate_snomed_graph_from_concepts`; an exception there propagates (modelled
as its error message).  When the image file exists at the returned path the
endpoint answers a multipart body carrying the graph text and the file — the
model keeps the text; when the file does not exist it raises
`ValueError("Server crashed")`, so neither image nor text is returned.
Whether the file exists is the environment's verdict and is passed in. -/
def InPatientAPI_graph (snomed_concepts : List (List Int)) (G : PyDiGraph Int)
    (concept_id_to_concept : List (String × String)) (graph_search_depth : Nat)
    (drawRes : Except String Unit) (fileExists : Bool) : Except String String :=
  match generate_snomed_graph_from_concepts snomed_concepts G concept_id_to_concept
      graph_search_depth drawRes with
  | Except.error GenError.indexError => Except.error "IndexError"
  | Except.error (GenError.keyError k) => Except.error ("KeyError: " ++ k)
  | Except.error (GenError.drawError m) => Except.error m
  | Except.ok (_, text) =>
      if fileExists then Except.ok text else Except.error "Server crashed"

/-- `Except.isOk` spelled out, used to state success and failure of the
embedded fallible operations. -/
def exceptIsOk {ε α : Type} : Except ε α → Bool
  | Except.ok _ => true
  | Except.error _ => false

/-- A nearest-neighbor candidate as the searcher sees it: concept id,
similarity score, and the token-span length of the vector that produced it.
Scores are rationals: the ranking and filtering logic under verification is
generic in the numeric type. -/
structure Candidate where
  conceptId : Int
  score : Rat
  spanLen : Nat
deriving DecidableEq

/-- The tie-break of spec 4.2: keep `a` over `b` when `a` scores higher, or
scores tie and `a` covers at least as long a token span. -/
def betterCand (a b : Candidate) : Bool :=
  if a.score = b.score then decide (b.spanLen ≤ a.spanLen) else decide (b.score ≤ a.score)

/-- Deduplication step of spec 4.2: merge one candidate into the accumulator,
keeping for each concept id the best candidate seen. -/
def mergeCand (acc : List Candidate) (c : Candidate) : List Candidate :=
  if acc.any (fun a => decide (a.conceptId = c.conceptId)) then
    acc.map (fun a =>
      if a.conceptId = c.conceptId then (if betterCand a c then a else c) else a)
  else acc ++ [c]

/-- Insertion into a list kept descending by score. -/
def insertDesc (c : Candidate) : List Candidate → List Candidate
  | [] => [c]
  | d :: rest => if d.score ≤ c.score then c :: d :: rest else d :: insertDesc c rest

/-- Sort descending by score. -/
def sortDesc (l : List Candidate) : List Candidate := l.foldr insertDesc []

/-- Modelled from the spec: `find_semantically_similar_nodes` lives in
`geniusrise_healthcare/search.py`, which is not under `src/`.  Per spec 4.2
the searcher discards candidates scoring below `cutoff`, merges the rest
deduplicating by concept id — keeping the highest score, ties preferring the
longer token span — and sorts descending by score, returning
`(concept_id, score)` pairs; truncation to `top_k` is not here, it happens in
`semantic_search_snomed` (base.py line 100). -/
def find_semantically_similar_nodes (cands : List Candidate) (cutoff : Rat) :
    List (Int × Rat) :=
  (sortDesc ((cands.filter (fun c => decide (cutoff ≤ c.score))).foldl mergeCand [])).map
    (fun c => (c.conceptId, c.score))

/-- The per-term concept-id group of base.py lines 100–101:
`closest_nodes[:top_k]` then `list(set([int(x[0]) for x in closest_nodes]))` —
truncate the ranked list, project the ids, convert through a Python set. -/
def perTermGroup (cands : List Candidate) (cutoff : Rat) (top_k : Nat) : List Int :=
  pySetList (((find_semantically_similar_nodes cands cutoff).take top_k).map
    (fun p => p.1))

/-- The term loop of base.py lines 88–101: a term whose ranked candidate list
is empty contributes nothing (the `if len(closest_nodes) > 0` guard);
otherwise its group is appended.  The per-term candidate lists produced by
`generate_permutation_embeddings` and the FAISS index are opaque inputs,
passed as the function `candidatesOf`. -/
def groupsOf (terms : List String) (candidatesOf : String → List Candidate)
    (cutoff : Rat) (top_k : Nat) : List (List Int) :=
  terms.foldl (fun acc node =>
    if 0 < (find_semantically_similar_nodes (candidatesOf node) cutoff).length then
      acc ++ [perTermGroup (candidatesOf node) cutoff top_k]
    else acc) []

/-- Resolution of one concept-id group (base.py line 107,
`concept_id_to_concept[str(y)]`): direct indexing, so a missing key is a
`KeyError` carrying the id. -/
def resolveGroup (lookup : List (String × String)) : List Int → Except String (List String)
  | [] => Except.ok []
  | y :: ys =>
      match alookup lookup (toString y) with
      | none => Except.error ("KeyError: " ++ toString y)
      | some c =>
          match resolveGroup lookup ys with
          | Except.error e => Except.error e
          | Except.ok cs => Except.ok (c :: cs)

/-- Resolution of all groups, first failure wins — the evaluation order of the
nested list comprehension on base.py line 107. -/
def resolveGroups (lookup : List (String × String)) :
    List (List Int) → Except String (List (List String))
  | [] => Except.ok []
  | g :: gs =>
      match resolveGroup lookup g with
      | Except.error e => Except.error e
      | Except.ok names =>
          match resolveGroups lookup gs with
          | Except.error e => Except.error e
          | Except.ok rest => Except.ok (names :: rest)

/-- The dictionary `semantic_search_snomed` returns (base.py lines 103–108). -/
structure SearchResult where
  query : String
  symptoms_diseases : List String
  snomed_concept_ids : List (List Int)
  snomed_concepts : List (List String)
deriving DecidableEq

/-- `semantic_search_snomed` (base.py lines 59–108): build the per-term
concept-id groups, then resolve every id through `concept_id_to_concept` —
failing with `KeyError` on an unknown id — and return the result
dictionary. -/
def semantic_search_snomed (user_input : String) (symptoms_and_diseases : List String)
    (candidatesOf : String → List Candidate) (concept_id_to_concept : List (String × String))
    (cutoff : Rat) (top_k : Nat) : Except String SearchResult :=
  let ids := groupsOf symptoms_and_diseases candidatesOf cutoff top_k
  match resolveGroups concept_id_to_concept ids with
  | Except.error e => Except.error e
  | Except.ok names =>
      Except.ok { query := user_input, symptoms_diseases := symptoms_and_diseases,
                  snomed_concept_ids := ids, snomed_concepts := names }

/-- The dictionary `ner` returns (base.py lines 53–56). -/
structure NerResult where
  query : String
  symptoms_diseases : List String
deriving DecidableEq

/-- `ner` (base.py lines 21–56).  The opaque annotator `annotate_snomed`
(geniusrise_healthcare/ner.py, not under `src/`) yields annotation dicts whose
`snomed` fields are collected on line 50; the model takes that collected list
`annotated` as an input.  Line 51 extends the caller-supplied accumulator in
place; the model threads the caller's list as state, returning its post-call
value alongside the result dictionary, which holds that same list. -/
def ner (user_input : String) (annotated : List String)
    (symptoms_and_diseases : List String) : List String × NerResult :=
  let updated := symptoms_and_diseases ++ annotated
  (updated, { query := user_input, symptoms_diseases := updated })

/-- One row of `process_semantic_types_file` (semantic_types.py lines 54–63):
`cui, tui = row[0], row[1]` — an `IndexError` on a short row, caught and
re-raised as `ValueError` — then, when `cui` is a node of `G`, initialize the
`semantic_types` attribute to `[]` if absent and append `tui`; appending to a
non-list value is an `AttributeError`, likewise re-raised.  A row whose `cui`
is not a node leaves the graph untouched. -/
def process_row (G : PyDiGraph String) (row : List String) :
    Except String (PyDiGraph String) :=
  match row[0]?, row[1]? with
  | some cui, some tui =>
      if hasNode G cui then
        match alookup (nodeAttrs G cui) "semantic_types" with
        | none =>
            Except.ok { G with nodes := G.nodes.map (fun p =>
              if p.1 = cui then (p.1, dictSet p.2 "semantic_types" (PyVal.pyList [PyVal.pyStr tui])) else p) }
        | some (PyVal.pyList l) =>
            Except.ok { G with nodes := G.nodes.map (fun p =>
              if p.1 = cui then (p.1, dictSet p.2 "semantic_types" (PyVal.pyList (l ++ [PyVal.pyStr tui]))) else p) }
        | some _ => Except.error "ValueError: AttributeError on append"
      else Except.ok G
  | _, _ => Except.error "ValueError: IndexError"

/-- `process_semantic_types_file` (semantic_types.py lines 40–63) over the
rows that `read_rrf_file` (not under `src/`, an opaque file reader) produced:
the rows are processed in order, mutating `G`; the first failing row raises
`ValueError`, leaving the mutations of the earlier rows in place.  The result
is the final state of `G` with the raised error, if any. -/
def process_semantic_types_file (rows : List (List String)) (G : PyDiGraph String) :
    PyDiGraph String × Option String :=
  match rows with
  | [] => (G, none)
  | r :: rest =>
      match process_row G r with
      | Except.ok G2 => process_semantic_types_file rest G2
      | Except.error e => (G, some e)

/-- The process-wide shared state of the serving API (genius.py: `self.G` and
`self.concept_id_to_concept`, loaded once in `load_models`).  The FAISS index
enters the model as the pure candidate function `candidatesOf` and is
read-only by construction. -/
structure EngineState where
  G : PyDiGraph Int
  concept_id_to_concept : List (String × String)

/-- `semantic_search_snomed` with the shared state threaded explicitly: the
operation reads the state and returns it; a faithful translation of a
mutating operation would return an updated state (compare
`process_semantic_types_file`, which does). -/
def semantic_search_snomed_state (st : EngineState) (user_input : String)
    (terms : List String) (candidatesOf : String → List Candidate)
    (cutoff : Rat) (top_k : Nat) : Except String (EngineState × SearchResult) :=
  (semantic_search_snomed user_input terms candidatesOf st.concept_id_to_concept
    cutoff top_k).map (fun r => (st, r))

/-- `generate_snomed_graph_from_concepts` with the shared state threaded
explicitly: the expansion reads `st.G`, the composition starts from
`subgraphs[0].copy()` and `nx.compose` builds fresh graphs, so the state is
returned unchanged. -/
def generate_snomed_graph_state (st : EngineState) (snomed_concepts : List (List Int))
    (depth : Nat) (drawRes : Except String Unit) :
    Except GenError (EngineState × PyDiGraph Int × String) :=
  (generate_snomed_graph_from_concepts snomed_concepts st.G st.concept_id_to_concept
    depth drawRes).map (fun p => (st, p))

/-- A two-node concept graph with one typed edge, resolvable names. -/
def exG : PyDiGraph Int :=
  { nodes := [(1, []), (2, [])],
    edges := [(1, 2, [("relationship_type", PyVal.pyStr "7")])] }

/-- Name lookup resolving both nodes and the relationship type of `exG`. -/
def exLookup : List (String × String) :=
  [("1", "heart"), ("2", "pain"), ("7", "assoc")]

/-- A graph like `exG` whose edge's relationship type `999` has no entry in
`exLookupPartial`. -/
def exGBadRel : PyDiGraph Int :=
  { nodes := [(1, []), (2, [])],
    edges := [(1, 2, [("relationship_type", PyVal.pyStr "999")])] }

/-- Lookup that knows the nodes of `exGBadRel` but not its relationship
type. -/
def exLookupPartial : List (String × String) := [("1", "heart"), ("2", "pain")]

/-- A concrete candidate oracle: the phrase "chest pain" yields concept 3 at
score 9/10 and concept 2 at score 8/10, both from two-token spans; everything
else yields nothing. -/
def exCands : String → List Candidate := fun t =>
  if t = "chest pain" then
    [{ conceptId := 3, score := mkRat 9 10, spanLen := 2 },
     { conceptId := 2, score := mkRat 8 10, spanLen := 2 }]
  else []

/-- Lookup resolving the concept ids that `exCands` can return. -/
def exConceptLookup : List (String × String) := [("2", "two"), ("3", "three")]

/-- The invariant networkx maintains on every `DiGraph` (spec section 3:
"every edge's endpoints are present as nodes"): `add_edge` inserts missing
endpoints, so no graph observable from networkx violates it. -/
def wfGraph {ν : Type} (G : PyDiGraph ν) : Prop :=
  ∀ e ∈ G.edges, e.1 ∈ nodeIds G ∧ e.2.1 ∈ nodeIds G

instance {ν : Type} [DecidableEq ν] (G : PyDiGraph ν) : Decidable (wfGraph G) := by
  unfold wfGraph
  infer_instance

/-- A third concrete subgraph for the composition-order witness. -/
def exH : PyDiGraph Int := { nodes := [(3, []), (4, [])], edges := [(4, 3, [])] }

/-- A concrete UMLS-style graph for the semantic-types witness: one node with
a `name` attribute, one edge. -/
def exU : PyDiGraph String :=
  { nodes := [("C1", [("name", PyVal.pyStr "x")]), ("C2", [])],
    edges := [("C1", "C2", [])] }

theorem alookup_isSome_iff {α β : Type} [DecidableEq α] (l : List (α × β)) (k : α) :
    (alookup l k).isSome = true ↔ k ∈ l.map (fun p => p.1) := by
  induction l with
  | nil => simp [alookup]
  | cons p rest ih =>
      by_cases h : p.1 = k
      · simp [alookup, h]
      · simp [alookup, h, ih, Ne.symm h]

theorem map_fst_condMap {α β : Type} [DecidableEq α] (l : List (α × β)) (t : α) (g : β → β) :
    (l.map (fun p => if p.1 = t then (p.1, g p.2) else p)).map (fun p => p.1)
      = l.map (fun p => p.1) := by
  induction l with
  | nil => rfl
  | cons p rest ih =>
      by_cases h : p.1 = t <;> simp [h, ih]

theorem alookup_condMap {α β : Type} [DecidableEq α] (l : List (α × β)) (t n : α) (g : β → β) :
    alookup (l.map (fun p => if p.1 = t then (p.1, g p.2) else p)) n
      = if n = t then (alookup l n).map g else alookup l n := by
  induction l with
  | nil => by_cases h : n = t <;> simp [alookup, h]
  | cons p rest ih =>
      by_cases hpt : p.1 = t
      · by_cases hpn : p.1 = n
        · simp [alookup, hpt, hpn, hpn ▸ hpt]
        · have htn : ¬ t = n := fun h => hpn (hpt.trans h)
          have hnt : ¬ n = t := fun h => htn h.symm
          simp [alookup, hpt, hpn, ih, htn, hnt]
      · by_cases hpn : p.1 = n
        · have : ¬ n = t := fun h => hpt (hpn.symm ▸ h)
          simp [alookup, hpt, hpn, this]
        · simp [alookup, hpt, hpn, ih]

theorem mem_nodeIds_addNodeFrom {ν : Type} [DecidableEq ν] (G : PyDiGraph ν)
    (p : ν × Attrs) (a : ν) :
    a ∈ nodeIds (addNodeFrom G p) ↔ a ∈ nodeIds G ∨ a = p.1 := by
  unfold addNodeFrom
  by_cases h : hasNode G p.1
  · have hmem : p.1 ∈ nodeIds G := (alookup_isSome_iff G.nodes p.1).mp h
    simp only [h, if_true]
    show a ∈ nodeIds _ ↔ _
    have : nodeIds { G with nodes := G.nodes.map (fun q => if q.1 = p.1 then (q.1, dictUpdate q.2 p.2) else q) } = nodeIds G := by
      simpa [nodeIds] using map_fst_condMap G.nodes p.1 (fun a2 => dictUpdate a2 p.2)
    rw [this]
    constructor
    · exact Or.inl
    · rintro (ha | rfl)
      · exact ha
      · exact hmem
  · simp only [h, if_false]
    simp [nodeIds]

theorem edges_addNodeFrom {ν : Type} [DecidableEq ν] (G : PyDiGraph ν) (p : ν × Attrs) :
    (addNodeFrom G p).edges = G.edges := by
  unfold addNodeFrom
  split <;> rfl

theorem mem_nodeIds_foldl_addNodeFrom {ν : Type} [DecidableEq ν] (ns : List (ν × Attrs))
    (G : PyDiGraph ν) (a : ν) :
    a ∈ nodeIds (ns.foldl addNodeFrom G) ↔ a ∈ nodeIds G ∨ a ∈ ns.map (fun p => p.1) := by
  induction ns generalizing G with
  | nil => simp
  | cons p rest ih =>
      simp only [List.foldl_cons, ih, mem_nodeIds_addNodeFrom, List.map_cons, List.mem_cons]
      tauto

theorem edges_foldl_addNodeFrom {ν : Type} [DecidableEq ν] (ns : List (ν × Attrs))
    (G : PyDiGraph ν) :
    (ns.foldl addNodeFrom G).edges = G.edges := by
  induction ns generalizing G with
  | nil => rfl
  | cons p rest ih => simp [List.foldl_cons, ih, edges_addNodeFrom]

theorem mem_nodeIds_ensureNode {ν : Type} [DecidableEq ν] (G : PyDiGraph ν) (x a : ν) :
    a ∈ nodeIds (ensureNode G x) ↔ a ∈ nodeIds G ∨ a = x := by
  unfold ensureNode
  by_cases h : hasNode G x
  · have hmem : x ∈ nodeIds G := (alookup_isSome_iff G.nodes x).mp h
    simp only [h, if_true]
    constructor
    · exact Or.inl
    · rintro (ha | rfl)
      · exact ha
      · exact hmem
  · simp only [h, if_false]
    simp [nodeIds]

theorem edges_ensureNode {ν : Type} [DecidableEq ν] (G : PyDiGraph ν) (x : ν) :
    (ensureNode G x).edges = G.edges := by
  unfold ensureNode
  split <;> rfl

theorem nodes_addEdgeFrom {ν : Type} [DecidableEq ν] (G : PyDiGraph ν) (e : ν × ν × Attrs) :
    (addEdgeFrom G e).nodes = (ensureNode (ensureNode G e.1) e.2.1).nodes := by
  simp only [addEdgeFrom]
  split <;> rfl

theorem mem_nodeIds_addEdgeFrom {ν : Type} [DecidableEq ν] (G : PyDiGraph ν)
    (e : ν × ν × Attrs) (a : ν) :
    a ∈ nodeIds (addEdgeFrom G e) ↔ a ∈ nodeIds G ∨ a = e.1 ∨ a = e.2.1 := by
  have h : nodeIds (addEdgeFrom G e) = nodeIds (ensureNode (ensureNode G e.1) e.2.1) := by
    simp [nodeIds, nodes_addEdgeFrom]
  rw [h, mem_nodeIds_ensureNode, mem_nodeIds_ensureNode]
  tauto

theorem map_pair_condMap {ν : Type} (l : List (ν × ν × Attrs)) (P : ν × ν × Attrs → Prop)
    [DecidablePred P] (u : ν × ν × Attrs → Attrs) :
    (l.map (fun f => if P f then (f.1, f.2.1, u f) else f)).map (fun e => (e.1, e.2.1))
      = l.map (fun e => (e.1, e.2.1)) := by
  induction l with
  | nil => rfl
  | cons f rest ih => by_cases h : P f <;> simp [h, ih]

theorem mem_edgePairs_addEdgeFrom {ν : Type} [DecidableEq ν] (G : PyDiGraph ν)
    (e : ν × ν × Attrs) (q : ν × ν) :
    q ∈ edgePairs (addEdgeFrom G e) ↔ q ∈ edgePairs G ∨ q = (e.1, e.2.1) := by
  have hE : (ensureNode (ensureNode G e.1) e.2.1).edges = G.edges := by
    rw [edges_ensureNode, edges_ensureNode]
  unfold addEdgeFrom
  by_cases h : (ensureNode (ensureNode G e.1) e.2.1).edges.any
      (fun f => decide (f.1 = e.1 ∧ f.2.1 = e.2.1))
  · have hpair : (e.1, e.2.1) ∈ edgePairs G := by
      rcases List.any_eq_true.mp h with ⟨f, hf, hfe⟩
      have hfe2 : f.1 = e.1 ∧ f.2.1 = e.2.1 := of_decide_eq_true hfe
      have : f ∈ G.edges := hE ▸ hf
      exact List.mem_map.mpr ⟨f, this, by rw [hfe2.1, hfe2.2]⟩
    simp only [h, if_true]
    have hset : edgePairs { ensureNode (ensureNode G e.1) e.2.1 with
        edges := (ensureNode (ensureNode G e.1) e.2.1).edges.map
          (fun f => if f.1 = e.1 ∧ f.2.1 = e.2.1 then (f.1, f.2.1, dictUpdate f.2.2 e.2.2) else f) }
        = edgePairs G := by
      show ((ensureNode (ensureNode G e.1) e.2.1).edges.map _).map _ = _
      rw [map_pair_condMap, hE]
      rfl
    rw [hset]
    constructor
    · exact Or.inl
    · rintro (hq | rfl)
      · exact hq
      · exact hpair
  · simp only [h, if_false]
    show q ∈ ((ensureNode (ensureNode G e.1) e.2.1).edges ++ [e]).map _ ↔ _
    rw [List.map_append, hE]
    simp [edgePairs]

theorem mem_nodeIds_foldl_addEdgeFrom {ν : Type} [DecidableEq ν] (es : List (ν × ν × Attrs))
    (G : PyDiGraph ν) (a : ν) :
    a ∈ nodeIds (es.foldl addEdgeFrom G)
      ↔ a ∈ nodeIds G ∨ a ∈ es.map (fun e => e.1) ∨ a ∈ es.map (fun e => e.2.1) := by
  induction es generalizing G with
  | nil => simp
  | cons e rest ih =>
      simp only [List.foldl_cons, ih, mem_nodeIds_addEdgeFrom, List.map_cons, List.mem_cons]
      tauto

theorem mem_edgePairs_foldl_addEdgeFrom {ν : Type} [DecidableEq ν] (es : List (ν × ν × Attrs))
    (G : PyDiGraph ν) (q : ν × ν) :
    q ∈ edgePairs (es.foldl addEdgeFrom G)
      ↔ q ∈ edgePairs G ∨ q ∈ es.map (fun e => (e.1, e.2.1)) := by
  induction es generalizing G with
  | nil => simp
  | cons e rest ih =>
      simp only [List.foldl_cons, ih, mem_edgePairs_addEdgeFrom, List.map_cons, List.mem_cons]
      tauto

theorem mem_nodeIds_nxCompose {ν : Type} [DecidableEq ν] (G H : PyDiGraph ν) (a : ν) :
    a ∈ nodeIds (nxCompose G H)
      ↔ a ∈ nodeIds G ∨ a ∈ nodeIds H
        ∨ a ∈ H.edges.map (fun e => e.1) ∨ a ∈ H.edges.map (fun e => e.2.1) := by
  unfold nxCompose
  rw [mem_nodeIds_foldl_addEdgeFrom, mem_nodeIds_foldl_addNodeFrom]
  simp only [nodeIds]
  tauto

theorem edgePairs_foldl_addNodeFrom {ν : Type} [DecidableEq ν] (ns : List (ν × Attrs))
    (G : PyDiGraph ν) :
    edgePairs (ns.foldl addNodeFrom G) = edgePairs G := by
  show (List.foldl addNodeFrom G ns).edges.map _ = _
  rw [edges_foldl_addNodeFrom]
  rfl

theorem mem_edgePairs_nxCompose {ν : Type} [DecidableEq ν] (G H : PyDiGraph ν) (q : ν × ν) :
    q ∈ edgePairs (nxCompose G H) ↔ q ∈ edgePairs G ∨ q ∈ edgePairs H := by
  unfold nxCompose
  rw [mem_edgePairs_foldl_addEdgeFrom, edgePairs_foldl_addNodeFrom]
  rfl

theorem mem_nodeIds_nxCompose_wf {ν : Type} [DecidableEq ν] (G H : PyDiGraph ν)
    (hH : wfGraph H) (a : ν) :
    a ∈ nodeIds (nxCompose G H) ↔ a ∈ nodeIds G ∨ a ∈ nodeIds H := by
  rw [mem_nodeIds_nxCompose]
  constructor
  · rintro (h | h | h | h)
    · exact Or.inl h
    · exact Or.inr h
    · rcases List.mem_map.mp h with ⟨e, he, rfl⟩
      exact Or.inr (hH e he).1
    · rcases List.mem_map.mp h with ⟨e, he, rfl⟩
      exact Or.inr (hH e he).2
  · rintro (h | h)
    · exact Or.inl h
    · exact Or.inr (Or.inl h)

/-- C7: composing subgraphs `[A, B, C]` in order yields the same node set and
the same edge set as composing them in order `[C, B, A]` — set union of nodes
and edges is order-insensitive — even though attribute values under last
write wins may differ.  The graphs satisfy the networkx invariant that edge
endpoints are nodes, as every graph observable from networkx does. -/
theorem compose_order_insensitive_sets (A B C X Y : PyDiGraph Int)
    (hA : wfGraph A) (hB : wfGraph B) (hC : wfGraph C)
    (hX : composeSubgraphs [A, B, C] = Except.ok X)
    (hY : composeSubgraphs [C, B, A] = Except.ok Y) :
    (∀ n, n ∈ nodeIds X ↔ n ∈ nodeIds Y) ∧ (∀ q, q ∈ edgePairs X ↔ q ∈ edgePairs Y) := by
  have hX2 : nxCompose (nxCompose A B) C = X := by
    simpa [composeSubgraphs] using hX
  have hY2 : nxCompose (nxCompose C B) A = Y := by
    simpa [composeSubgraphs] using hY
  subst hX2
  subst hY2
  constructor
  · intro n
    rw [mem_nodeIds_nxCompose_wf _ _ hC, mem_nodeIds_nxCompose_wf _ _ hB,
      mem_nodeIds_nxCompose_wf _ _ hA, mem_nodeIds_nxCompose_wf _ _ hB]
    tauto
  · intro q
    rw [mem_edgePairs_nxCompose, mem_edgePairs_nxCompose,
      mem_edgePairs_nxCompose, mem_edgePairs_nxCompose]
    tauto

/-- Witness for `compose_order_insensitive_sets`: three concrete subgraphs
composed in the two opposite orders. -/
theorem compose_order_insensitive_sets_witness :
    (wfGraph exG ∧ wfGraph exGBadRel ∧ wfGraph exH ∧
      composeSubgraphs [exG, exGBadRel, exH]
        = Except.ok (nxCompose (nxCompose exG exGBadRel) exH) ∧
      composeSubgraphs [exH, exGBadRel, exG]
        = Except.ok (nxCompose (nxCompose exH exGBadRel) exG)) ∧
    (∀ n, n ∈ nodeIds (nxCompose (nxCompose exG exGBadRel) exH)
      ↔ n ∈ nodeIds (nxCompose (nxCompose exH exGBadRel) exG)) ∧
    (∀ q, q ∈ edgePairs (nxCompose (nxCompose exG exGBadRel) exH)
      ↔ q ∈ edgePairs (nxCompose (nxCompose exH exGBadRel) exG)) :=
  ⟨⟨by decide, by decide, by decide, rfl, rfl⟩,
    compose_order_insensitive_sets exG exGBadRel exH
      (nxCompose (nxCompose exG exGBadRel) exH) (nxCompose (nxCompose exH exGBadRel) exG)
      (by decide) (by decide) (by decide) rfl rfl⟩

/-- C1 (amended): the composition step fails — with the `IndexError` that
`subgraphs[0]` raises, there is no `EmptyCompositionError` — exactly when the
list of expanded subgraphs is empty, i.e. when the seed-group list produced no
subgraphs at all; a non-empty list of subgraphs always composes, even when
every one of them is empty. -/
theorem generate_index_error_iff_no_subgraphs (snomed_concepts : List (List Int))
    (G : PyDiGraph Int) (lookup : List (String × String)) (depth : Nat)
    (drawRes : Except String Unit) :
    generate_snomed_graph_from_concepts snomed_concepts G lookup depth drawRes
        = Except.error GenError.indexError
      ↔ expandAll snomed_concepts G depth = [] := by
  cases h : expandAll snomed_concepts G depth with
  | nil => simp [generate_snomed_graph_from_concepts, h, composeSubgraphs]
  | cons g rest =>
      simp only [generate_snomed_graph_from_concepts, h, composeSubgraphs]
      cases drawRes with
      | error m => simp
      | ok u =>
          cases hr : renderText lookup (rest.foldl nxCompose g) with
          | error k => simp [hr]
          | ok text => simp [hr]

/-- Counterexample to C1 as stated: two seed groups whose seeds `5` and `6`
are absent from the graph expand to two empty subgraphs — zero non-empty
subgraphs — yet the operation does not fail with any composition error: it
succeeds and returns the empty composed graph with the bare header text. -/
theorem empty_subgraphs_compose_ok_cex :
    expandAll [[5], [6]] exG 1 = [{ nodes := [], edges := [] }, { nodes := [], edges := [] }] ∧
    generate_snomed_graph_from_concepts [[5], [6]] exG exLookup 1 (Except.ok ())
      = Except.ok ({ nodes := [], edges := [] }, "Graph:\n") := ⟨rfl, rfl⟩

theorem exceptIsOk_edgeLineE (lookup : List (String × String)) (e : Int × Int × Attrs) :
    exceptIsOk (edgeLineE lookup e) = (relNameOf lookup e.2.2).isSome := by
  unfold edgeLineE relNameOf
  cases h : relKeyOf e.2.2 with
  | error k => rfl
  | ok r =>
      dsimp only
      cases hr : alookup lookup r <;> rfl

theorem edgeLineE_ok_val (lookup : List (String × String)) (e : Int × Int × Attrs)
    (line : String) (h : edgeLineE lookup e = Except.ok line) :
    line = lineOf lookup e := by
  cases ha : relKeyOf e.2.2 with
  | error k =>
      have hv : edgeLineE lookup e = Except.error k := by
        unfold edgeLineE; rw [ha]
      rw [hv] at h
      exact absurd h (by simp)
  | ok r =>
      cases hr : alookup lookup r with
      | none =>
          have hv : edgeLineE lookup e = Except.error r := by
            unfold edgeLineE; rw [ha]; dsimp only; rw [hr]
          rw [hv] at h
          exact absurd h (by simp)
      | some rel =>
          have hv : edgeLineE lookup e = Except.ok (nodeName lookup e.1 ++ " --[" ++ rel
              ++ "]--> " ++ nodeName lookup e.2.1 ++ "\n") := by
            unfold edgeLineE; rw [ha]; dsimp only; rw [hr]
          have hl : lineOf lookup e = nodeName lookup e.1 ++ " --[" ++ rel
              ++ "]--> " ++ nodeName lookup e.2.1 ++ "\n" := by
            unfold lineOf relNameOf; rw [ha]; dsimp only; rw [hr]; rfl
          rw [hv] at h
          simp only [Except.ok.injEq] at h
          rw [hl, ← h]

theorem renderEdges_ok (lookup : List (String × String)) (es : List (Int × Int × Attrs)) :
    ∀ acc s, renderEdges lookup es acc = Except.ok s → s = acc ++ linesOf lookup es := by
  induction es with
  | nil =>
      intro acc s h
      simp only [renderEdges, Except.ok.injEq] at h
      simp [← h, linesOf]
  | cons e rest ih =>
      intro acc s h
      simp only [renderEdges] at h
      cases he : edgeLineE lookup e with
      | error k => rw [he] at h; exact absurd h (by simp)
      | ok line =>
          rw [he] at h
          have hs := ih (acc ++ line) s h
          rw [hs, edgeLineE_ok_val lookup e line he, linesOf, String.append_assoc]

theorem exceptIsOk_renderEdges (lookup : List (String × String))
    (es : List (Int × Int × Attrs)) :
    ∀ acc, exceptIsOk (renderEdges lookup es acc)
      = es.all (fun e => (relNameOf lookup e.2.2).isSome) := by
  induction es with
  | nil => intro acc; rfl
  | cons e rest ih =>
      intro acc
      simp only [renderEdges, List.all_cons]
      cases he : edgeLineE lookup e with
      | error k =>
          have : (relNameOf lookup e.2.2).isSome = false := by
            rw [← exceptIsOk_edgeLineE, he]; rfl
          simp [this, exceptIsOk]
      | ok line =>
          have : (relNameOf lookup e.2.2).isSome = true := by
            rw [← exceptIsOk_edgeLineE, he]; rfl
          simp [this, ih]

theorem exceptIsOk_resolveGroup (lookup : List (String × String)) (g : List Int) :
    exceptIsOk (resolveGroup lookup g)
      = g.all (fun y => (alookup lookup (toString y)).isSome) := by
  induction g with
  | nil => rfl
  | cons y ys ih =>
      simp only [resolveGroup, List.all_cons]
      cases hy : alookup lookup (toString y) with
      | none => simp [exceptIsOk]
      | some c =>
          simp only [Option.isSome_some, Bool.true_and]
          cases hr : resolveGroup lookup ys with
          | error e => rw [hr] at ih; simpa [exceptIsOk] using ih
          | ok cs => rw [hr] at ih; simpa [exceptIsOk] using ih

theorem exceptIsOk_resolveGroups (lookup : List (String × String)) (gs : List (List Int)) :
    exceptIsOk (resolveGroups lookup gs)
      = gs.all (fun g => g.all (fun y => (alookup lookup (toString y)).isSome)) := by
  induction gs with
  | nil => rfl
  | cons g rest ih =>
      simp only [resolveGroups, List.all_cons]
      cases hg : resolveGroup lookup g with
      | error e =>
          have : exceptIsOk (resolveGroup lookup g) = false := by rw [hg]; rfl
          rw [exceptIsOk_resolveGroup] at this
          simp [this, exceptIsOk]
      | ok names =>
          have : exceptIsOk (resolveGroup lookup g) = true := by rw [hg]; rfl
          rw [exceptIsOk_resolveGroup] at this
          cases hr : resolveGroups lookup rest with
          | error e => rw [hr] at ih; simp [this, exceptIsOk, ← ih]
          | ok out => rw [hr] at ih; simp [this, exceptIsOk, ← ih]

/-- C8: every text rendering `generate_snomed_graph_from_concepts` produces is
the header line `"Graph:\n"` followed by exactly one line per edge of the
composed graph, in the graph's native edge iteration order, each line of the
form `<from-name> --[<relationship-name>]--> <to-name>` with the endpoint
names resolved through the identifier-to-name lookup (raw identifier
fallback) and the relationship name resolved through the same lookup. -/
theorem render_text_format (lookup : List (String × String)) (G : PyDiGraph Int)
    (s : String) (h : renderText lookup G = Except.ok s) :
    s = "Graph:\n" ++ linesOf lookup G.edges :=
  renderEdges_ok lookup G.edges "Graph:\n" s h

/-- Witness for `render_text_format`: the rendering of the one-edge graph
`exG` is its header plus the single resolved line. -/
theorem render_text_format_witness :
    (renderText exLookup exG = Except.ok "Graph:\nheart --[assoc]--> pain\n") ∧
    "Graph:\nheart --[assoc]--> pain\n" = "Graph:\n" ++ linesOf exLookup exG.edges :=
  ⟨rfl, render_text_format exLookup exG "Graph:\nheart --[assoc]--> pain\n" rfl⟩

/-- C2 (amended): endpoint names fall back to the raw identifier and can never
fail, so rendering succeeds exactly when every edge's `relationship_type`
attribute resolves through the lookup — an edge whose relationship-type
identifier is absent raises a `KeyError` instead of rendering the raw
identifier; likewise `semantic_search_snomed` succeeds exactly when every
matched concept id is a key of the lookup, raising `KeyError` otherwise. -/
theorem identifier_resolution_amended (lookup : List (String × String))
    (G : PyDiGraph Int) (ui : String) (terms : List String)
    (candidatesOf : String → List Candidate) (cutoff : Rat) (top_k : Nat) :
    (∀ i : Int, alookup lookup (toString i) = none → nodeName lookup i = toString i) ∧
    (exceptIsOk (renderText lookup G)
      = G.edges.all (fun e => (relNameOf lookup e.2.2).isSome)) ∧
    (exceptIsOk (semantic_search_snomed ui terms candidatesOf lookup cutoff top_k)
      = (groupsOf terms candidatesOf cutoff top_k).all
          (fun g => g.all (fun y => (alookup lookup (toString y)).isSome))) := by
  refine ⟨fun i hi => by simp [nodeName, hi], ?_, ?_⟩
  · exact exceptIsOk_renderEdges lookup G.edges "Graph:\n"
  · rw [← exceptIsOk_resolveGroups lookup (groupsOf terms candidatesOf cutoff top_k)]
    unfold semantic_search_snomed
    dsimp only
    cases hr : resolveGroups lookup (groupsOf terms candidatesOf cutoff top_k) <;>
      simp [hr, exceptIsOk]

/-- Witness for `identifier_resolution_amended`: the id `999` is absent from
the partial lookup, and its node name is the raw identifier string. -/
theorem identifier_resolution_amended_witness :
    (alookup exLookupPartial (toString (999 : Int)) = none) ∧
    nodeName exLookupPartial 999 = toString (999 : Int) :=
  ⟨rfl, (identifier_resolution_amended exLookupPartial exGBadRel "q" [] exCands 0 0).1
    999 rfl⟩

/-- Counterexample to C2 as stated: the edge of `exGBadRel` carries the
relationship-type identifier `999`, which has no entry in the lookup; the
operation does not render `999` verbatim, it raises `KeyError: 999` — no text
is produced at all. -/
theorem unresolved_relationship_type_raises_cex :
    generate_snomed_graph_from_concepts [[1]] exGBadRel exLookupPartial 1 (Except.ok ())
      = Except.error (GenError.keyError "999") ∧
    semantic_search_snomed "q" ["chest pain"] exCands [("3", "three")] (mkRat 6 10) 3
      = Except.error ("KeyError: " ++ toString (2 : Int)) := ⟨rfl, by rfl⟩

/-- Counterexample to C4 as stated: on the one-edge graph `exG` text rendering
succeeds, yet when the external diagram draw fails the whole operation
aborts with that failure and no text is returned. -/
theorem draw_failure_aborts_text_cex :
    renderText exLookup exG = Except.ok "Graph:\nheart --[assoc]--> pain\n" ∧
    generate_snomed_graph_from_concepts [[1]] exG exLookup 1 (Except.error "unwritable")
      = Except.error (GenError.drawError "unwritable") := ⟨rfl, rfl⟩

/-- C4 (amended): image persistence failure is fatal, twice over.  An
exception escaping `draw_subgraph` aborts `generate_snomed_graph_from_concepts`
before any text is rendered (there is no handler), and even when generation
succeeds, the `InPatientAPI.graph` endpoint answers `ValueError` — returning
neither image nor text — whenever the image file is absent. -/
theorem image_failure_fatal_amended (snomed_concepts : List (List Int))
    (G : PyDiGraph Int) (lookup : List (String × String)) (depth : Nat) :
    (∀ m g, composeSubgraphs (expandAll snomed_concepts G depth) = Except.ok g →
      generate_snomed_graph_from_concepts snomed_concepts G lookup depth (Except.error m)
        = Except.error (GenError.drawError m)) ∧
    (∀ drawRes, exceptIsOk
      (InPatientAPI_graph snomed_concepts G lookup depth drawRes false) = false) := by
  constructor
  · intro m g hg
    unfold generate_snomed_graph_from_concepts
    rw [hg]
  · intro drawRes
    unfold InPatientAPI_graph
    cases hgen : generate_snomed_graph_from_concepts snomed_concepts G lookup depth drawRes with
    | error e => cases e <;> rfl
    | ok p => rfl

/-- Witness for `image_failure_fatal_amended`: on `exG` the composition step
succeeds concretely, so a failing draw yields exactly the draw failure. -/
theorem image_failure_fatal_amended_witness :
    (composeSubgraphs (expandAll [[1]] exG 1) = Except.ok exG) ∧
    generate_snomed_graph_from_concepts [[1]] exG exLookup 1 (Except.error "boom")
      = Except.error (GenError.drawError "boom") :=
  ⟨rfl, (image_failure_fatal_amended [[1]] exG exLookup 1).1 "boom" exG rfl⟩

theorem groupsOf_skip (pre post : List String) (t : String)
    (candidatesOf : String → List Candidate) (cutoff : Rat) (top_k : Nat)
    (h : find_semantically_similar_nodes (candidatesOf t) cutoff = []) :
    groupsOf (pre ++ t :: post) candidatesOf cutoff top_k
      = groupsOf (pre ++ post) candidatesOf cutoff top_k := by
  unfold groupsOf
  rw [List.foldl_append, List.foldl_append, List.foldl_cons]
  rw [h]
  simp

/-- C5: a searched term for which no nearest-neighbor candidate clears the
cutoff never makes the search fail: the outcome — the concept-id groups, the
resolved names, and success or failure of the whole call — is exactly the
outcome of the same search without that term ("no match" is not an error; the
term merely contributes no group, by the emptiness guard of base.py
line 99). -/
theorem no_match_term_not_failure (ui : String) (pre post : List String) (t : String)
    (candidatesOf : String → List Candidate) (lookup : List (String × String))
    (cutoff : Rat) (top_k : Nat)
    (h : find_semantically_similar_nodes (candidatesOf t) cutoff = []) :
    (semantic_search_snomed ui (pre ++ t :: post) candidatesOf lookup cutoff top_k).map
        (fun r => (r.snomed_concept_ids, r.snomed_concepts))
      = (semantic_search_snomed ui (pre ++ post) candidatesOf lookup cutoff top_k).map
        (fun r => (r.snomed_concept_ids, r.snomed_concepts)) := by
  unfold semantic_search_snomed
  dsimp only
  rw [groupsOf_skip pre post t candidatesOf cutoff top_k h]
  cases hr : resolveGroups lookup (groupsOf (pre ++ post) candidatesOf cutoff top_k) <;>
    simp [hr, Except.map]

/-- Witness for `no_match_term_not_failure`: the term `"none"` yields no
candidates at all, so inserting it changes nothing and raises nothing. -/
theorem no_match_term_not_failure_witness :
    (find_semantically_similar_nodes (exCands "none") (mkRat 6 10) = []) ∧
    (semantic_search_snomed "q" (["chest pain"] ++ "none" :: []) exCands exConceptLookup
        (mkRat 6 10) 3).map (fun r => (r.snomed_concept_ids, r.snomed_concepts))
      = (semantic_search_snomed "q" (["chest pain"] ++ []) exCands exConceptLookup
        (mkRat 6 10) 3).map (fun r => (r.snomed_concept_ids, r.snomed_concepts)) :=
  ⟨rfl, no_match_term_not_failure "q" ["chest pain"] [] "none" exCands exConceptLookup
    (mkRat 6 10) 3 rfl⟩

/-- C6: neither request-serving operation mutates the shared state.  The
shallow embedding threads the process-wide Concept Graph and name lookup
through each operation (a mutating operation returns an updated state, as
`process_semantic_types_file` does); both `semantic_search_snomed` and
`generate_snomed_graph_from_concepts` return the state they were given:
the composition works on `subgraphs[0].copy()` and on the fresh graphs
`nx.compose` builds, never writing to `G`. -/
theorem shared_state_unchanged (st : EngineState) (ui : String) (terms : List String)
    (candidatesOf : String → List Candidate) (cutoff : Rat) (top_k : Nat)
    (snomed_concepts : List (List Int)) (depth : Nat) (drawRes : Except String Unit) :
    (∀ st2 r, semantic_search_snomed_state st ui terms candidatesOf cutoff top_k
        = Except.ok (st2, r) → st2 = st) ∧
    (∀ st2 p, generate_snomed_graph_state st snomed_concepts depth drawRes
        = Except.ok (st2, p) → st2 = st) := by
  constructor
  · intro st2 r h
    unfold semantic_search_snomed_state at h
    cases hs : semantic_search_snomed ui terms candidatesOf st.concept_id_to_concept
        cutoff top_k with
    | error e => rw [hs] at h; exact absurd h (by simp [Except.map])
    | ok out =>
        rw [hs] at h
        simp only [Except.map, Except.ok.injEq, Prod.mk.injEq] at h
        exact h.1.symm
  · intro st2 p h
    unfold generate_snomed_graph_state at h
    cases hs : generate_snomed_graph_from_concepts snomed_concepts st.G
        st.concept_id_to_concept depth drawRes with
    | error e => rw [hs] at h; exact absurd h (by simp [Except.map])
    | ok out =>
        rw [hs] at h
        simp only [Except.map, Except.ok.injEq, Prod.mk.injEq] at h
        exact h.1.symm

/-- Witness for `shared_state_unchanged`: both operations run to success on
the concrete state built from `exG` and `exLookup` and return it intact. -/
theorem shared_state_unchanged_witness :
    (semantic_search_snomed_state ⟨exG, exLookup⟩ "q" [] exCands (mkRat 6 10) 3
      = Except.ok (⟨exG, exLookup⟩,
          { query := "q", symptoms_diseases := [],
            snomed_concept_ids := [], snomed_concepts := [] })) ∧
    (⟨exG, exLookup⟩ : EngineState) = ⟨exG, exLookup⟩ :=
  ⟨rfl, (shared_state_unchanged ⟨exG, exLookup⟩ "q" [] exCands (mkRat 6 10) 3
    [[1]] 1 (Except.ok ())).1 ⟨exG, exLookup⟩
    { query := "q", symptoms_diseases := [], snomed_concept_ids := [],
      snomed_concepts := [] } rfl⟩

/-- C9: `ner` extends the caller-supplied accumulator in place — the
post-call list is the prior list with the newly annotated concepts appended
at the end, every prior entry keeps its position, and the returned
dictionary's `symptoms_diseases` value is that same (mutated) list. -/
theorem ner_extends_in_place (user_input : String) (annotated prior : List String) :
    (ner user_input annotated prior).1 = prior ++ annotated ∧
    (ner user_input annotated prior).2.symptoms_diseases = (ner user_input annotated prior).1 ∧
    (ner user_input annotated prior).2.query = user_input ∧
    (∀ i, i < prior.length → (ner user_input annotated prior).1[i]? = prior[i]?) := by
  refine ⟨rfl, rfl, rfl, fun i hi => ?_⟩
  show (prior ++ annotated)[i]? = prior[i]?
  rw [List.getElem?_append, if_pos hi]

/-- Witness for `ner_extends_in_place`: position 0 of a one-element prior
list survives the call. -/
theorem ner_extends_in_place_witness :
    (0 < (["fever"] : List String).length) ∧
    (ner "q" ["cough"] ["fever"]).1[0]? = (["fever"] : List String)[0]? :=
  ⟨by decide, (ner_extends_in_place "q" ["cough"] ["fever"]).2.2.2 0 (by decide)⟩

theorem alookup_append {α β : Type} [DecidableEq α] (d1 d2 : List (α × β)) (k : α) :
    alookup (d1 ++ d2) k
      = match alookup d1 k with
        | some v => some v
        | none => alookup d2 k := by
  induction d1 with
  | nil => simp [alookup]
  | cons p rest ih =>
      by_cases h : p.1 = k <;> simp [alookup, h, ih]

theorem alookup_dictSet_ne {β : Type} (d : List (String × β)) (k k2 : String) (v : β)
    (h : k2 ≠ k) : alookup (dictSet d k v) k2 = alookup d k2 := by
  unfold dictSet
  by_cases hp : (alookup d k).isSome = true
  · rw [if_pos hp]
    rw [alookup_condMap d k k2 (fun _ => v)]
    rw [if_neg h]
  · rw [if_neg hp]
    rw [alookup_append]
    cases ha : alookup d k2 with
    | some v2 => rfl
    | none =>
        have hne : ¬ (k = k2) := fun hh => h hh.symm
        simp [alookup, hne]

theorem condSet_frame (G : PyDiGraph String) (cui : String) (v : PyVal) :
    ({ G with nodes := G.nodes.map (fun p =>
        if p.1 = cui then (p.1, dictSet p.2 "semantic_types" v) else p) } : PyDiGraph String).edges
        = G.edges ∧
    nodeIds ({ G with nodes := G.nodes.map (fun p =>
        if p.1 = cui then (p.1, dictSet p.2 "semantic_types" v) else p) } : PyDiGraph String)
        = nodeIds G ∧
    ∀ n k, k ≠ "semantic_types" →
      alookup (nodeAttrs ({ G with nodes := G.nodes.map (fun p =>
        if p.1 = cui then (p.1, dictSet p.2 "semantic_types" v) else p) } : PyDiGraph String) n) k
        = alookup (nodeAttrs G n) k := by
  refine ⟨rfl, ?_, ?_⟩
  · exact map_fst_condMap G.nodes cui (fun a => dictSet a "semantic_types" v)
  · intro n k hk
    have hcm := alookup_condMap G.nodes cui n (fun a => dictSet a "semantic_types" v)
    simp only [nodeAttrs]
    rw [hcm]
    by_cases hn : n = cui
    · rw [if_pos hn]
      cases ha : alookup G.nodes n with
      | none => rfl
      | some a =>
          exact alookup_dictSet_ne a "semantic_types" k v hk
    · rw [if_neg hn]

theorem process_row_frame (G : PyDiGraph String) (row : List String)
    (G2 : PyDiGraph String) (h : process_row G row = Except.ok G2) :
    G2.edges = G.edges ∧ nodeIds G2 = nodeIds G ∧
    ∀ n k, k ≠ "semantic_types" → alookup (nodeAttrs G2 n) k = alookup (nodeAttrs G n) k := by
  unfold process_row at h
  cases h0 : row[0]? with
  | none => rw [h0] at h; exact absurd h (by simp)
  | some cui =>
      cases h1 : row[1]? with
      | none => rw [h0, h1] at h; exact absurd h (by simp)
      | some tui =>
          rw [h0, h1] at h
          dsimp only at h
          by_cases hn : hasNode G cui
          · rw [if_pos hn] at h
            cases ha : alookup (nodeAttrs G cui) "semantic_types" with
            | none =>
                rw [ha] at h
                simp only [Except.ok.injEq] at h
                rw [← h]
                exact condSet_frame G cui (PyVal.pyList [PyVal.pyStr tui])
            | some w =>
                rw [ha] at h
                cases w with
                | pyStr r => exact absurd h (by simp)
                | pyInt m => exact absurd h (by simp)
                | pyList l =>
                    simp only [Except.ok.injEq] at h
                    rw [← h]
                    exact condSet_frame G cui (PyVal.pyList (l ++ [PyVal.pyStr tui]))
          · rw [if_neg hn] at h
            simp only [Except.ok.injEq] at h
            rw [← h]
            exact ⟨rfl, rfl, fun n k hk => rfl⟩

theorem process_frame_aux (rows : List (List String)) (G : PyDiGraph String) :
    (process_semantic_types_file rows G).1.edges = G.edges ∧
    nodeIds (process_semantic_types_file rows G).1 = nodeIds G ∧
    ∀ n k, k ≠ "semantic_types" →
      alookup (nodeAttrs (process_semantic_types_file rows G).1 n) k
        = alookup (nodeAttrs G n) k := by
  induction rows generalizing G with
  | nil => exact ⟨rfl, rfl, fun n k hk => rfl⟩
  | cons r rest ih =>
      unfold process_semantic_types_file
      cases hr : process_row G r with
      | error e => exact ⟨rfl, rfl, fun n k hk => rfl⟩
      | ok G2 =>
          rcases process_row_frame G r G2 hr with ⟨he, hnn, hat⟩
          rcases ih G2 with ⟨ihe, ihn, iha⟩
          exact ⟨ihe.trans he, ihn.trans hnn,
            fun n k hk => (iha n k hk).trans (hat n k hk)⟩

/-- C10: `process_semantic_types_file` never adds or removes nodes or edges
and touches no node attribute other than `semantic_types` — this holds for
the final graph whether the run completes or aborts on a bad row — and a row
whose identifier is not a node of the graph leaves the graph completely
unchanged. -/
theorem semantic_types_frame (rows : List (List String)) (G : PyDiGraph String) :
    (process_semantic_types_file rows G).1.edges = G.edges ∧
    nodeIds (process_semantic_types_file rows G).1 = nodeIds G ∧
    (∀ n k, k ≠ "semantic_types" →
      alookup (nodeAttrs (process_semantic_types_file rows G).1 n) k
        = alookup (nodeAttrs G n) k) ∧
    (∀ (H : PyDiGraph String) (cui tui : String) (rest2 : List String),
      hasNode H cui = false → process_row H (cui :: tui :: rest2) = Except.ok H) := by
  rcases process_frame_aux rows G with ⟨he, hn, ha⟩
  refine ⟨he, hn, ha, fun H cui tui rest2 hab => ?_⟩
  unfold process_row
  simp [hab]

/-- Witness for `semantic_types_frame`: after processing one matching and one
non-matching row, the node set is intact and the `name` attribute of `C1` is
untouched. -/
theorem semantic_types_frame_witness :
    (("name" : String) ≠ "semantic_types") ∧
    alookup (nodeAttrs (process_semantic_types_file [["C1", "T047"], ["C9", "T047"]] exU).1 "C1")
        "name"
      = alookup (nodeAttrs exU "C1") "name" :=
  ⟨by decide, (semantic_types_frame [["C1", "T047"], ["C9", "T047"]] exU).2.2.1 "C1" "name"
    (by decide)⟩

theorem mem_dedupFirst (l : List Int) : ∀ (seen : List Int) (a : Int),
    a ∈ dedupFirst seen l ↔ a ∈ l ∧ a ∉ seen := by
  induction l with
  | nil => intro seen a; simp [dedupFirst]
  | cons x xs ih =>
      intro seen a
      by_cases h : x ∈ seen
      · rw [dedupFirst, if_pos h, ih seen a]
        constructor
        · rintro ⟨hxs, hns⟩
          exact ⟨List.mem_cons_of_mem x hxs, hns⟩
        · rintro ⟨hmem, hns⟩
          rcases List.mem_cons.mp hmem with rfl | hxs
          · exact absurd h hns
          · exact ⟨hxs, hns⟩
      · rw [dedupFirst, if_neg h]
        rw [List.mem_cons, ih (x :: seen) a]
        constructor
        · rintro (rfl | ⟨hxs, hns⟩)
          · exact ⟨List.mem_cons_self _ _, h⟩
          · exact ⟨List.mem_cons_of_mem x hxs,
              fun hs => hns (List.mem_cons_of_mem x hs)⟩
        · rintro ⟨hmem, hns⟩
          rcases List.mem_cons.mp hmem with rfl | hxs
          · exact Or.inl rfl
          · by_cases hax : a = x
            · exact Or.inl hax
            · exact Or.inr ⟨hxs, fun hs => by
                rcases List.mem_cons.mp hs with h1 | h2
                · exact hax h1
                · exact hns h2⟩

theorem mem_insertAscMod8 (x a : Int) (l : List Int) :
    a ∈ insertAscMod8 x l ↔ a = x ∨ a ∈ l := by
  induction l with
  | nil => simp [insertAscMod8]
  | cons y ys ih =>
      rw [insertAscMod8]
      split
      · simp [List.mem_cons]
      · rw [List.mem_cons, ih, List.mem_cons]
        tauto

theorem mem_sortAscMod8 (l : List Int) (a : Int) : a ∈ sortAscMod8 l ↔ a ∈ l := by
  induction l with
  | nil => simp [sortAscMod8]
  | cons x xs ih =>
      rw [sortAscMod8, List.foldr_cons]
      show a ∈ insertAscMod8 x (sortAscMod8 xs) ↔ _
      rw [mem_insertAscMod8, ih, List.mem_cons]

theorem mem_pySetList (l : List Int) (a : Int) : a ∈ pySetList l ↔ a ∈ l := by
  simp only [pySetList]
  split
  · rw [mem_sortAscMod8, mem_dedupFirst]
    simp
  · rw [mem_dedupFirst]
    simp

theorem length_dedupFirst_le (l : List Int) : ∀ seen : List Int,
    (dedupFirst seen l).length ≤ l.length := by
  induction l with
  | nil => intro seen; simp [dedupFirst]
  | cons x xs ih =>
      intro seen
      rw [dedupFirst]
      split
      · exact Nat.le_trans (ih seen) (Nat.le_succ _)
      · simpa using Nat.succ_le_succ (ih (x :: seen))

theorem length_insertAscMod8 (x : Int) (l : List Int) :
    (insertAscMod8 x l).length = l.length + 1 := by
  induction l with
  | nil => rfl
  | cons y ys ih =>
      rw [insertAscMod8]
      split
      · rfl
      · simpa using ih

theorem length_sortAscMod8 (l : List Int) : (sortAscMod8 l).length = l.length := by
  induction l with
  | nil => rfl
  | cons x xs ih =>
      rw [sortAscMod8, List.foldr_cons]
      show (insertAscMod8 x (sortAscMod8 xs)).length = _
      rw [length_insertAscMod8, ih, List.length_cons]

theorem length_pySetList_le (l : List Int) : (pySetList l).length ≤ l.length := by
  simp only [pySetList]
  split
  · rw [length_sortAscMod8]
    exact length_dedupFirst_le l []
  · exact length_dedupFirst_le l []

theorem mem_mergeCand (acc : List Candidate) (c b : Candidate)
    (h : b ∈ mergeCand acc c) : b ∈ acc ∨ b = c := by
  unfold mergeCand at h
  split at h
  · rcases List.mem_map.mp h with ⟨a, ha, hb⟩
    by_cases hid : a.conceptId = c.conceptId
    · rw [if_pos hid] at hb
      by_cases hbet : betterCand a c
      · rw [if_pos hbet] at hb
        exact Or.inl (hb ▸ ha)
      · rw [if_neg hbet] at hb
        exact Or.inr hb.symm
    · rw [if_neg hid] at hb
      exact Or.inl (hb ▸ ha)
  · rcases List.mem_append.mp h with ha | hc
    · exact Or.inl ha
    · exact Or.inr (List.mem_singleton.mp hc)

theorem mem_foldl_mergeCand (l : List Candidate) : ∀ (acc : List Candidate) (b : Candidate),
    b ∈ List.foldl mergeCand acc l → b ∈ acc ∨ b ∈ l := by
  induction l with
  | nil => intro acc b h; exact Or.inl h
  | cons c rest ih =>
      intro acc b h
      rw [List.foldl_cons] at h
      rcases ih (mergeCand acc c) b h with hm | hr
      · rcases mem_mergeCand acc c b hm with ha | rfl
        · exact Or.inl ha
        · exact Or.inr (List.mem_cons_self _ _)
      · exact Or.inr (List.mem_cons_of_mem c hr)

theorem mem_insertDesc (c b : Candidate) (l : List Candidate) :
    b ∈ insertDesc c l ↔ b = c ∨ b ∈ l := by
  induction l with
  | nil => simp [insertDesc]
  | cons d rest ih =>
      rw [insertDesc]
      split
      · simp [List.mem_cons]
      · rw [List.mem_cons, ih, List.mem_cons]
        tauto

theorem mem_sortDesc (l : List Candidate) (b : Candidate) : b ∈ sortDesc l ↔ b ∈ l := by
  induction l with
  | nil => simp [sortDesc]
  | cons c rest ih =>
      rw [sortDesc, List.foldr_cons]
      show b ∈ insertDesc c (sortDesc rest) ↔ _
      rw [mem_insertDesc, ih, List.mem_cons]

theorem score_mem_find (cands : List Candidate) (cutoff : Rat) (i : Int) (s : Rat)
    (h : (i, s) ∈ find_semantically_similar_nodes cands cutoff) : cutoff ≤ s := by
  unfold find_semantically_similar_nodes at h
  rcases List.mem_map.mp h with ⟨c, hc, hpair⟩
  rw [mem_sortDesc] at hc
  rcases mem_foldl_mergeCand _ [] c hc with hnil | hfil
  · exact absurd hnil (List.not_mem_nil c)
  · have hs : decide (cutoff ≤ c.score) = true := (List.mem_filter.mp hfil).2
    have : cutoff ≤ c.score := of_decide_eq_true hs
    have hsc : c.score = s := congrArg Prod.snd hpair
    exact hsc ▸ this

/-- C3 (amended): per term, the searcher merges, deduplicates keeping the
highest score, and sorts descending; `semantic_search_snomed` then truncates
the ranked list to `top_k` and converts through a Python set.  The resulting
group therefore holds at most `top_k` concept ids, exactly the ids of the
`top_k` best candidates, every one scoring at least the cutoff — but the
group is listed in set-iteration order, not in descending score order. -/
theorem per_term_group_amended (cands : List Candidate) (cutoff : Rat) (top_k : Nat) :
    (perTermGroup cands cutoff top_k).length ≤ top_k ∧
    (∀ i, i ∈ perTermGroup cands cutoff top_k
      ↔ i ∈ ((find_semantically_similar_nodes cands cutoff).take top_k).map
          (fun p => p.1)) ∧
    (∀ i s, (i, s) ∈ find_semantically_similar_nodes cands cutoff → cutoff ≤ s) := by
  refine ⟨?_, ?_, fun i s h => score_mem_find cands cutoff i s h⟩
  · unfold perTermGroup
    refine Nat.le_trans (length_pySetList_le _) ?_
    rw [List.length_map, List.length_take]
    exact Nat.min_le_left _ _
  · intro i
    unfold perTermGroup
    rw [mem_pySetList]

/-- Witness for `per_term_group_amended`: the candidate `(2, 8/10)` is in the
concrete searcher output and its score clears the cutoff `6/10`. -/
theorem per_term_group_amended_witness :
    ((2, mkRat 8 10) ∈ find_semantically_similar_nodes (exCands "chest pain") (mkRat 6 10)) ∧
    mkRat 6 10 ≤ mkRat 8 10 :=
  ⟨by decide, (per_term_group_amended (exCands "chest pain") (mkRat 6 10) 3).2.2 2
    (mkRat 8 10) (by decide)⟩

/-- Counterexample to C3 as stated: for the phrase "chest pain" the ranked
candidates are concept 3 at 9/10 then concept 2 at 8/10, so the descending
score listing of the matched ids is `[3, 2]` — but the per-term group that
`semantic_search_snomed` returns is `[2, 3]` (Python set iteration of the
small ints 2 and 3), which is not in descending score order. -/
theorem per_term_order_not_descending_cex :
    semantic_search_snomed "q" ["chest pain"] exCands exConceptLookup (mkRat 6 10) 3
      = Except.ok { query := "q", symptoms_diseases := ["chest pain"],
                    snomed_concept_ids := [[2, 3]], snomed_concepts := [["two", "three"]] } ∧
    ((find_semantically_similar_nodes (exCands "chest pain") (mkRat 6 10)).take 3).map
        (fun p => p.1) = [3, 2] ∧
    ([[2, 3]] : List (List Int)) ≠ [[3, 2]] :=
  ⟨by rfl, by decide, by decide⟩
